import Mathlib

/-!
Verification of the `try_hard` crate (src/src/lib.rs): the `SoftResult` and
`MalleableResult` types and the `try_soft!` / `try_hard!` macros, together
with the test harness functions `tries_hard`, `tries_soft`, `check_try_hard`.

The two macros splice an early `return` into the enclosing function's body.
We embed that control-flow effect explicitly: evaluating a macro invocation
yields either `earlyReturn r` (the enclosing function stops and returns `r`)
or `continueWith v` (execution continues with `v` bound).  A function whose
body uses a macro is embedded by matching on that step, so "no statement
after the operator executes" is visible as the `earlyReturn` branch ignoring
the rest of the body.
-/

set_option autoImplicit false

namespace TryHard

/-- Rust's standard `Result<T, E>`: variants `Ok(T)` then `Err(E)`, in that
declaration order (the order the derived comparison uses). -/
inductive RustResult (T E : Type) where
  | Ok : T → RustResult T E
  | Err : E → RustResult T E
deriving DecidableEq

/-- The enum `SoftResult<T, E>` from src/src/lib.rs lines 22-30: variants `Ok(T)` then
`SoftErr(E)`, in that declaration order. -/
inductive SoftResult (T E : Type) where
  | Ok : T → SoftResult T E
  | SoftErr : E → SoftResult T E
deriving DecidableEq

/-- The alias `pub type MalleableResult<T, SoftError, HardError> =
Result<SoftResult<T, SoftError>, HardError>;` (src/src/lib.rs line 19),
a transparent type alias. -/
abbrev MalleableResult (T SoftError HardError : Type) : Type :=
  RustResult (SoftResult T SoftError) HardError

/-- Result of evaluating a short-circuiting macro invocation inside a
function body: either an immediate `return r` from the enclosing function,
or a value with which the rest of the body continues. -/
inductive MacroStep (R V : Type) where
  | earlyReturn : R → MacroStep R V
  | continueWith : V → MacroStep R V
deriving DecidableEq

/-- The macro `try_soft!` (src/src/lib.rs lines 35-42):
arm `Ok(t) => t`, arm `SoftErr(e) => return Result::Ok(SoftResult::SoftErr(e))`. -/
def try_soft {T E U H : Type} :
    SoftResult T E → MacroStep (MalleableResult U E H) T
  | .Ok t => .continueWith t
  | .SoftErr e => .earlyReturn (.Ok (.SoftErr e))

/-- The macro `try_hard!` (src/src/lib.rs lines 49-56):
arm `Result::Ok(t) => try_soft!(t)`, arm `Result::Err(e) => return Result::Err(e)`. -/
def try_hard {T E U H : Type} :
    MalleableResult T E H → MacroStep (MalleableResult U E H) T
  | .Ok t => try_soft t
  | .Err e => .earlyReturn (.Err e)

/-- The unit-struct soft-error marker used by the tests. -/
inductive SoftError where
  | mk : SoftError
deriving DecidableEq

/-- The unit-struct hard-error marker used by the tests. -/
inductive HardError where
  | mk : HardError
deriving DecidableEq

/-- Test function `tries_hard` (src/src/lib.rs lines 74-81):
`let x = try_hard!(hard_result); *has_skipped = false; Ok(SoftResult::Ok(x))`.
Returns the function's result paired with the final value of the
`has_skipped` flag (whose initial value is the argument). -/
def tries_hard (hard_result : MalleableResult Unit SoftError HardError)
    (has_skipped : Bool) : MalleableResult Unit SoftError HardError × Bool :=
  match try_hard hard_result with
  | .earlyReturn r => (r, has_skipped)
  | .continueWith x => (.Ok (.Ok x), false)

/-- Test function `tries_soft` (src/src/lib.rs lines 84-88):
`Ok(SoftResult::Ok(try_soft!(soft_result)))`. -/
def tries_soft (soft_result : SoftResult Unit SoftError) :
    MalleableResult Unit SoftError HardError :=
  match try_soft soft_result with
  | .earlyReturn r => r
  | .continueWith x => .Ok (.Ok x)

/-- The assertions of the test `check_try_hard` (src/src/lib.rs lines 90-104):
starting from `has_skipped = true`, `tries_hard` returns the input unchanged
and leaves the flag at `expected_skip`. -/
def check_try_hard (hard_result : MalleableResult Unit SoftError HardError)
    (expected_skip : Bool) : Prop :=
  tries_hard hard_result true = (hard_result, expected_skip)

/-- The comparison generated by `#[derive(Ord)]` on `SoftResult`: variant tag
first (declaration order: `Ok` before `SoftErr`), then the payload. -/
def SoftResult.cmp {T E : Type} [Ord T] [Ord E] :
    SoftResult T E → SoftResult T E → Ordering
  | .Ok a, .Ok b => compare a b
  | .Ok _, .SoftErr _ => .lt
  | .SoftErr _, .Ok _ => .gt
  | .SoftErr a, .SoftErr b => compare a b

instance {T E : Type} [Ord T] [Ord E] : Ord (SoftResult T E) :=
  ⟨SoftResult.cmp⟩

/-- Rust's `x <= y` derived from `Ord`: `cmp(x, y) != Greater`. -/
def SoftResult.le {T E : Type} [Ord T] [Ord E] (x y : SoftResult T E) : Prop :=
  SoftResult.cmp x y ≠ .gt

/-- The equality test generated by `#[derive(PartialEq)]` on `SoftResult`:
same variant and equal payloads. -/
def SoftResult.beq {T E : Type} [BEq T] [BEq E] :
    SoftResult T E → SoftResult T E → Bool
  | .Ok a, .Ok b => a == b
  | .SoftErr a, .SoftErr b => a == b
  | .Ok _, .SoftErr _ => false
  | .SoftErr _, .Ok _ => false

/-- The hashing scheme generated by `#[derive(Hash)]` on `SoftResult`, over an
abstract hasher state `σ`: feed the variant discriminant (0 for `Ok`, 1 for
`SoftErr`) into the state, then hash the payload into it. -/
def SoftResult.hashWith {σ T E : Type} (hashDisc : σ → Nat → σ)
    (hashT : σ → T → σ) (hashE : σ → E → σ) (s : σ) : SoftResult T E → σ
  | .Ok a => hashT (hashDisc s 0) a
  | .SoftErr b => hashE (hashDisc s 1) b

/-- The comparison Rust's standard library derives for `Result`: variant tag
first (declaration order: `Ok` before `Err`), then the payload. -/
def RustResult.cmp {T E : Type} [Ord T] [Ord E] :
    RustResult T E → RustResult T E → Ordering
  | .Ok a, .Ok b => compare a b
  | .Ok _, .Err _ => .lt
  | .Err _, .Ok _ => .gt
  | .Err a, .Err b => compare a b

/-- C1: for every hard error `e`, the macro `try_hard` applied to `Err e`
(`Failed(e)`) performs an early return with `Err e` unchanged, at every
instantiation of the type parameters; in the test function `tries_hard` no
statement after the macro executes, so the `has_skipped` flag keeps its
initial value. -/
theorem try_hard_relays_hard_errors :
    (∀ (T E U H : Type) (e : H),
        try_hard (T := T) (E := E) (U := U) (RustResult.Err e) =
          MacroStep.earlyReturn (RustResult.Err e)) ∧
    (∀ (e : HardError) (b : Bool),
        tries_hard (RustResult.Err e) b = (RustResult.Err e, b)) :=
  ⟨fun _ _ _ _ _ => rfl, fun _ _ => rfl⟩

/-- C2: the macro `try_hard` applied to `Ok x` (`Completed(x)`) behaves
identically to `try_soft` applied to `x`; in particular on
`Ok (SoftErr e)` it early-returns `Ok (SoftErr e)` exactly as `try_soft`
would. -/
theorem try_hard_completed_delegates_to_try_soft :
    (∀ (T E U H : Type) (x : SoftResult T E),
        try_hard (U := U) (H := H) (RustResult.Ok x) = try_soft x) ∧
    (∀ (T E U H : Type) (e : E),
        try_hard (T := T) (U := U) (H := H)
            (RustResult.Ok (SoftResult.SoftErr e)) =
          MacroStep.earlyReturn (RustResult.Ok (SoftResult.SoftErr e)) ∧
        try_soft (T := T) (U := U) (H := H) (SoftResult.SoftErr e) =
          MacroStep.earlyReturn (RustResult.Ok (SoftResult.SoftErr e))) :=
  ⟨fun _ _ _ _ _ => rfl, fun _ _ _ _ _ => ⟨rfl, rfl⟩⟩

/-- C3: the macro `try_hard` applied to `Ok (Ok v)` (`Completed(Ok(v))`)
evaluates to `v` and execution continues; in the §8 scenario `tries_hard`
runs the statement after the macro, setting the flag to `false`, and returns
`Ok (Ok ())`. -/
theorem try_hard_ok_continues :
    (∀ (T E U H : Type) (v : T),
        try_hard (E := E) (U := U) (H := H)
            (RustResult.Ok (SoftResult.Ok v)) = MacroStep.continueWith v) ∧
    tries_hard (RustResult.Ok (SoftResult.Ok ())) true =
      (RustResult.Ok (SoftResult.Ok ()), false) :=
  ⟨fun _ _ _ _ _ => rfl, rfl⟩

/-- C4: the macro `try_soft` applied to `Ok v` evaluates to `v` with no early
return; `tries_soft` on `Ok ()` continues and yields `Ok (Ok ())`. -/
theorem try_soft_ok_yields_value :
    (∀ (T E U H : Type) (v : T),
        try_soft (E := E) (U := U) (H := H) (SoftResult.Ok v) =
          MacroStep.continueWith v) ∧
    tries_soft (SoftResult.Ok ()) = RustResult.Ok (SoftResult.Ok ()) :=
  ⟨fun _ _ _ _ _ => rfl, rfl⟩

/-- C5: the macro `try_soft` applied to `SoftErr e` performs an early return
with `Ok (SoftErr e)` (`Completed(SoftErr(e))`) as the enclosing function's
result: `tries_soft` yields exactly that, and in `tries_hard` (whose body
reaches `try_soft` through `try_hard`) the statement after the macro does
not execute, so the flag keeps its initial value. -/
theorem try_soft_softerr_early_exit :
    (∀ (T E U H : Type) (e : E),
        try_soft (T := T) (U := U) (H := H) (SoftResult.SoftErr e) =
          MacroStep.earlyReturn (RustResult.Ok (SoftResult.SoftErr e))) ∧
    (∀ e : SoftError,
        tries_soft (SoftResult.SoftErr e) =
          RustResult.Ok (SoftResult.SoftErr e)) ∧
    (∀ (e : SoftError) (b : Bool),
        tries_hard (RustResult.Ok (SoftResult.SoftErr e)) b =
          (RustResult.Ok (SoftResult.SoftErr e), b)) :=
  ⟨fun _ _ _ _ _ => rfl, fun _ => rfl, fun _ _ => rfl⟩

/-- C6: round-trip: wrapping any `v` as `Ok (Ok v)` and passing it through a
body that applies `try_hard` and re-wraps the extracted value yields
`Ok (Ok v)` back; the pass-through function `tries_hard` is the identity on
every `MalleableResult` input, and the three rows of the `check_try_hard`
test all hold. -/
theorem tries_hard_roundtrip_identity :
    (∀ (T E H : Type) (v : T),
        (match try_hard (E := E) (H := H) (RustResult.Ok (SoftResult.Ok v)) with
          | MacroStep.earlyReturn r => r
          | MacroStep.continueWith x => RustResult.Ok (SoftResult.Ok x)) =
          RustResult.Ok (SoftResult.Ok v)) ∧
    (∀ (r : MalleableResult Unit SoftError HardError) (b : Bool),
        (tries_hard r b).fst = r) ∧
    check_try_hard (RustResult.Ok (SoftResult.Ok ())) false ∧
    check_try_hard (RustResult.Ok (SoftResult.SoftErr SoftError.mk)) true ∧
    check_try_hard (RustResult.Err HardError.mk) true := by
  refine ⟨fun T E H v => rfl, fun r b => ?_, rfl, rfl, rfl⟩
  cases r with
  | Ok s => cases s <;> rfl
  | Err e => rfl

/-- C7: tier preservation: a soft error entering `try_soft` or `try_hard`
exits wrapped as `Ok (SoftErr e)` (the soft tier), and a hard error entering
`try_hard` exits as `Err e` (the hard tier); these equations cover every
failure shape, so no propagation step promotes or demotes a tier. -/
theorem propagation_preserves_tier :
    (∀ (T E U H : Type) (e : E),
        try_soft (T := T) (U := U) (H := H) (SoftResult.SoftErr e) =
          MacroStep.earlyReturn (RustResult.Ok (SoftResult.SoftErr e))) ∧
    (∀ (T E U H : Type) (e : E),
        try_hard (T := T) (U := U) (H := H)
            (RustResult.Ok (SoftResult.SoftErr e)) =
          MacroStep.earlyReturn (RustResult.Ok (SoftResult.SoftErr e))) ∧
    (∀ (T E U H : Type) (h : H),
        try_hard (T := T) (E := E) (U := U) (RustResult.Err h) =
          MacroStep.earlyReturn (RustResult.Err h)) :=
  ⟨fun _ _ _ _ _ => rfl, fun _ _ _ _ _ => rfl, fun _ _ _ _ _ => rfl⟩

/-- C8: the derived order on `SoftResult` compares the variant tag first:
`Ok t` is strictly below `SoftErr e` for all payloads, and within a variant
the derived `<=` agrees with the payload order. -/
theorem softResult_order_tag_first {T E : Type} [LinearOrder T]
    [LinearOrder E] :
    (∀ (t : T) (e : E),
        SoftResult.cmp (SoftResult.Ok t) (SoftResult.SoftErr e) =
          Ordering.lt) ∧
    (∀ (t : T) (e : E),
        SoftResult.cmp (SoftResult.SoftErr e) (SoftResult.Ok t) =
          Ordering.gt) ∧
    (∀ a b : T,
        SoftResult.le (SoftResult.Ok (E := E) a) (SoftResult.Ok b) ↔ a ≤ b) ∧
    (∀ a b : E,
        SoftResult.le (SoftResult.SoftErr (T := T) a) (SoftResult.SoftErr b)
          ↔ a ≤ b) := by
  refine ⟨fun t e => rfl, fun t e => rfl, fun a b => ?_, fun a b => ?_⟩ <;>
    simpa [SoftResult.le, SoftResult.cmp] using
      compare_le_iff_le (a := a) (b := b)

/-- Witness for C8: the order statements evaluated at concrete naturals. -/
theorem softResult_order_tag_first_witness :
    SoftResult.cmp (SoftResult.Ok (E := Nat) 1) (SoftResult.SoftErr 0) =
      Ordering.lt ∧
    (SoftResult.le (SoftResult.Ok (E := Nat) 1) (SoftResult.Ok 2) ↔
      (1 : Nat) ≤ 2) :=
  ⟨(softResult_order_tag_first (T := Nat) (E := Nat)).1 1 0,
   (softResult_order_tag_first (T := Nat) (E := Nat)).2.2.1 1 2⟩

/-- C9: derived equality on `SoftResult` is structural value equality, and
derived hashing is consistent with it: whenever the payload hash functions
respect payload equality, equal `SoftResult` values hash to the same state. -/
theorem softResult_eq_hash_consistent {S T E : Type} [BEq T] [BEq E]
    (hashDisc : S → Nat → S) (hashT : S → T → S) (hashE : S → E → S)
    (hT : ∀ (s : S) (a b : T), (a == b) = true → hashT s a = hashT s b)
    (hE : ∀ (s : S) (a b : E), (a == b) = true → hashE s a = hashE s b) :
    (∀ a b : T,
        SoftResult.beq (SoftResult.Ok (E := E) a) (SoftResult.Ok b) =
          (a == b)) ∧
    (∀ a b : E,
        SoftResult.beq (SoftResult.SoftErr (T := T) a) (SoftResult.SoftErr b)
          = (a == b)) ∧
    (∀ (a : T) (b : E),
        SoftResult.beq (SoftResult.Ok a) (SoftResult.SoftErr b) = false) ∧
    (∀ (a : E) (b : T),
        SoftResult.beq (SoftResult.SoftErr a) (SoftResult.Ok b) = false) ∧
    (∀ (s : S) (x y : SoftResult T E), SoftResult.beq x y = true →
        SoftResult.hashWith hashDisc hashT hashE s x =
          SoftResult.hashWith hashDisc hashT hashE s y) := by
  refine ⟨fun a b => rfl, fun a b => rfl, fun a b => rfl, fun a b => rfl,
    fun s x y hxy => ?_⟩
  cases x <;> cases y
  · exact hT _ _ _ hxy
  · exact (Bool.false_ne_true hxy).elim
  · exact (Bool.false_ne_true hxy).elim
  · exact hE _ _ _ hxy

/-- Witness for C9: the equality and hash statements at concrete naturals,
with a concrete hasher satisfying the hypotheses. -/
theorem softResult_eq_hash_consistent_witness :
    SoftResult.beq (SoftResult.Ok (E := Nat) 2) (SoftResult.SoftErr 3) =
      false ∧
    SoftResult.hashWith (fun s n => s * 31 + n) (fun s a => s * 31 + a)
        (fun s b => s * 31 + b) 7 (SoftResult.Ok (E := Nat) 2) =
      SoftResult.hashWith (fun s n => s * 31 + n) (fun s a => s * 31 + a)
        (fun s b => s * 31 + b) 7 (SoftResult.Ok (E := Nat) 2) := by
  have h := softResult_eq_hash_consistent (S := Nat) (T := Nat) (E := Nat)
    (fun s n => s * 31 + n) (fun s a => s * 31 + a) (fun s b => s * 31 + b)
    (fun s a b hab => by rw [eq_of_beq hab])
    (fun s a b hab => by rw [eq_of_beq hab])
  exact ⟨h.2.2.1 2 3,
    h.2.2.2.2 7 (SoftResult.Ok 2) (SoftResult.Ok 2) (by decide)⟩

/-- C10: `MalleableResult` is definitionally the standard `Result` applied to
`SoftResult` and the hard-error type, and the derived order on that `Result`
places every `Ok` (`Completed`) strictly before every `Err` (`Failed`). -/
theorem malleableResult_alias_completed_before_failed {T S H : Type}
    [Ord T] [Ord S] [Ord H] :
    (MalleableResult T S H = RustResult (SoftResult T S) H) ∧
    (∀ (o : SoftResult T S) (h : H),
        RustResult.cmp (RustResult.Ok o) (RustResult.Err h) = Ordering.lt) ∧
    (∀ (o : SoftResult T S) (h : H),
        RustResult.cmp (RustResult.Err h) (RustResult.Ok o) = Ordering.gt) :=
  ⟨rfl, fun _ _ => rfl, fun _ _ => rfl⟩

/-- Witness for C10: a concrete `Completed` value compares strictly below a
concrete `Failed` value. -/
theorem malleableResult_alias_witness :
    RustResult.cmp (RustResult.Ok (SoftResult.Ok (0 : Nat)))
        ((RustResult.Err 5 : MalleableResult Nat Nat Nat)) = Ordering.lt :=
  (malleableResult_alias_completed_before_failed
      (T := Nat) (S := Nat) (H := Nat)).2.1 (SoftResult.Ok 0) 5

end TryHard
